import Mathlib

/-!
Shallow embedding of the syzkaller bisection driver (`pkg/bisect/bisect.go`).

The external collaborators (VCS adapter, builder, test runner, config
minimizer) are modelled as oracle parameters passed to each embedded
function; every definition mirrors the control flow of its Go counterpart,
with mutation of the `env` struct turned into explicit state passing.
Error values are modelled as inductive tags (the Go code only ever
distinguishes them by identity of the message or by the `InfraError` type).
-/

namespace SyzBisect

/-- Verdicts of `vcs.BisectResult`: `BisectBad`, `BisectGood`, `BisectSkip`. -/
inductive BisectResult
  | bad
  | good
  | skip
deriving DecidableEq

/-- `vcs.Commit`: hash, title and parent hashes (recipient lists are omitted:
they are only printed, never branched on by the driver). -/
structure Commit where
  hash : String
  title : String
  parents : List String
deriving DecidableEq

/-- `report.Report`: crash title and formatted report text. -/
structure Report where
  title : String
  report : String
deriving DecidableEq

/-- `testResult` of bisect.go: per-revision verdict record. -/
structure TestResult where
  verdict : BisectResult
  com : Commit
  rep : Option Report
  kernelSign : String
deriving DecidableEq

/-- A kernel configuration blob (Go `[]byte`). -/
abbrev KConfig := String

/-- Plain (fatal) error values produced by the driver; each constructor tags
one `fmt.Errorf` site (or an error bubbled up from a collaborator). -/
inductive FatalMsg
  | binDirMissing
  | userspaceMissing
  | sysctlMissing
  | cmdlineMissing
  | newRepoFailed
  | newEnvFailed
  | timeout
  | noRepoHead
  | notReproducedOnOriginal
  | noReleaseTags
  | noRangeResults
  | oldestReleaseSkip
  | vcsFailure
deriving DecidableEq

/-- Titles of the distinguished retryable `InfraError` values. -/
inductive InfraMsg
  | checkoutBranchFailed
  | reproTestingFailure
  | tooManyInfraFailures
deriving DecidableEq

/-- Driver errors: plain fatal errors versus the distinguished retryable
`InfraError` values. -/
inductive BError
  | fatal (m : FatalMsg)
  | infra (m : InfraMsg)
deriving DecidableEq

/-- `Result` of bisect.go (the bisection outcome returned to the caller). -/
structure Result where
  commits : List Commit
  report : Option Report
  commit : Option Commit
  config : KConfig
  noopChange : Bool
  isRelease : Bool
deriving DecidableEq

/-- `MaxNumTests`: number of tests done per commit. -/
def MaxNumTests : Nat := 20

/-- Trial-count policy of `env.test`: `numTests := MaxNumTests / 2`, doubled
when the reproducer is known flaky or this is the first test of the session. -/
def trialCount (flaky : Bool) (numTests : Nat) : Nat :=
  let n := MaxNumTests / 2
  if flaky ∨ numTests = 0 then n * 2 else n

/-- The mutable session counters of `env` that `env.test` reads and writes. -/
structure SessionState where
  flaky : Bool
  numTests : Nat
deriving DecidableEq

/-- One trial outcome (`instance.EnvTestResult`): `none` models a nil error
(clean success); the error cases carry exactly the data the driver reads. -/
inductive TrialError
  | testError (infra : Bool) (boot : Bool)
  | crashError (rep : Report)
  | otherError
deriving DecidableEq

abbrev EnvTestResult := Option TrialError

/-- The counters accumulated by `env.processResults`. -/
structure Tally where
  bad : Nat
  good : Nat
  infra : Nat
  rep : Option Report
deriving DecidableEq

/-- One iteration of the loop in `env.processResults`: clean success counts
good; a `TestError` counts infra only when its infra flag is set (boot and
basic-test failures count neither good nor bad); a `CrashError` counts bad and
remembers its report as the representative; any other error counts infra. -/
def processTrial (t : Tally) (r : EnvTestResult) : Tally :=
  match r with
  | none => { t with good := t.good + 1 }
  | some (.testError i _) => if i then { t with infra := t.infra + 1 } else t
  | some (.crashError rep) => { t with bad := t.bad + 1, rep := some rep }
  | some .otherError => { t with infra := t.infra + 1 }

/-- `env.processResults` (logging and debug-file persistence omitted: they do
not feed back into the driver). -/
def processResults (results : List EnvTestResult) : Tally :=
  results.foldl processTrial { bad := 0, good := 0, infra := 0, rep := none }

/-- Outcome of `env.build` as seen by `env.test`: no repo HEAD (fatal), a
build failure (recoverable, carries the classified error text used as report
title), or a successful build with a kernel signature. -/
inductive BuildOutcome
  | noHead
  | buildFailed (current : Commit) (kernelSign : String) (errInfo : String)
  | built (current : Commit) (kernelSign : String)
deriving DecidableEq

/-- The synthetic report used when no trial crashed and none succeeded. -/
def failedTestingReport (h : String) : Report :=
  { title := "failed testing reproducer on " ++ h, report := "" }

/-- `env.test`. `timedOut` models the wall-clock check at entry; the test
runner is an oracle from the requested trial count to a list of trial
outcomes (`.error` models `inst.Test` itself failing). Returns the updated
session counters and either an error or the `testResult`. -/
def test (timedOut : Bool) (buildOutcome : BuildOutcome)
    (runner : Nat → Except Unit (List EnvTestResult))
    (st : SessionState) : SessionState × Except BError TestResult :=
  if timedOut then (st, .error (.fatal .timeout))
  else
    match buildOutcome with
    | .noHead => (st, .error (.fatal .noRepoHead))
    | .buildFailed current kernelSign errInfo =>
      (st, .ok { verdict := .skip, com := current,
                 rep := some { title := errInfo, report := "" },
                 kernelSign := kernelSign })
    | .built current kernelSign =>
      let n := trialCount st.flaky st.numTests
      let st1 : SessionState := { st with numTests := st.numTests + 1 }
      match runner n with
      | .error _ => (st1, .error (.infra .reproTestingFailure))
      | .ok results =>
        let t := processResults results
        if t.infra > results.length / 2 then
          (st1, .error (.infra .tooManyInfraFailures))
        else if t.bad ≠ 0 then
          let st2 := if ¬ st1.flaky ∧ t.bad < t.good
            then { st1 with flaky := true } else st1
          (st2, .ok { verdict := .bad, com := current, rep := t.rep,
                      kernelSign := kernelSign })
        else if t.good ≠ 0 then
          (st1, .ok { verdict := .good, com := current, rep := t.rep,
                      kernelSign := kernelSign })
        else
          (st1, .ok { verdict := .skip, com := current,
                      rep := some (failedTestingReport current.hash),
                      kernelSign := kernelSign })

/-- The verdict inversion used for fix bisection, in closed form: the if-chain
in the oracle predicate maps bad to good and good to bad and leaves skip. -/
def flipVerdict : BisectResult → BisectResult
  | .bad => .good
  | .good => .bad
  | .skip => .skip

/-- A test result with its verdict inverted by `flipVerdict`. -/
def flipResult (t : TestResult) : TestResult :=
  { t with verdict := flipVerdict t.verdict }

/-- The predicate closure handed to the external bisect oracle in `env.bisect`:
run one test; in fix mode invert a bad or good verdict in place; store the
(possibly inverted) result in the results map; return its verdict. The Go map
`results` is modelled as an association list where the most recent insertion
shadows earlier entries. -/
def pred (fix : Bool) (results : List (String × TestResult))
    (testOutcome : Except BError TestResult) :
    Except BError (List (String × TestResult) × BisectResult) :=
  match testOutcome with
  | .error e => .error e
  | .ok testRes0 =>
    let testRes1 :=
      if fix then
        if testRes0.verdict = .bad then { testRes0 with verdict := .good }
        else if testRes0.verdict = .good then { testRes0 with verdict := .bad }
        else testRes0
      else testRes0
    .ok ((testRes1.com.hash, testRes1) :: results, testRes1.verdict)

/-- The reproducibility gate of `env.bisect`: after testing the resolved
starting commit, any verdict other than bad aborts the session. -/
def reproducibilityGate (firstTest : Except BError TestResult) :
    Except BError TestResult :=
  match firstTest with
  | .error e => .error e
  | .ok testRes =>
    if testRes.verdict ≠ .bad then .error (.fatal .notReproducedOnOriginal)
    else .ok testRes

/-- `env.bisect` from the reproducibility gate on: the remainder of the
session (minimization, range finding, the oracle and result assembly) is
abstracted as a continuation that only runs when the gate passes. -/
def afterGate (firstTest : Except BError TestResult)
    (rest : TestResult → Except BError Result) : Except BError Result :=
  match reproducibilityGate firstTest with
  | .error e => .error e
  | .ok t => rest t

/-- First-match lookup in the minimizer result map. `hash.Hash` of a config
blob is modelled by keying on the blob itself: the driver uses the hash only
as a collision-free map key. -/
def lookupConfig (m : List (KConfig × TestResult)) (k : KConfig) :
    Option TestResult :=
  match m.find? (fun p => p.1 == k) with
  | some p => some p.2
  | none => none

/-- `env.minimizeConfig`: the opaque minimizer calls the predicate on
`candidates` in order (each call installs the candidate as the active config,
tests it and records the result), then returns `minConfig`, which the driver
installs as the active config before looking up its recorded result. The
returned pair is (new active config, recorded result of the returned config).
The per-candidate tester is an oracle (a test error inside the predicate
aborts minimization and is not part of the claims about this function). -/
def minimizeConfig (tester : KConfig → TestResult) (candidates : List KConfig)
    (minConfig : KConfig) : KConfig × Option TestResult :=
  let testResults := candidates.foldl (fun m c => (c, tester c) :: m)
    ([] : List (KConfig × TestResult))
  (minConfig, lookupConfig testResults minConfig)

/-- The adoption step in `env.bisect` right after minimization: the starting
test result is replaced only when the minimizer output has a recorded result;
the active config has already been replaced unconditionally. -/
def adoptMinimized (testRes : TestResult)
    (minimized : KConfig × Option TestResult) : KConfig × TestResult :=
  match minimized.2 with
  | some testRes1 => (minimized.1, testRes1)
  | none => (minimized.1, testRes)

/-- The for-loop of `env.commitRangeForCause`: walk the previous release tags
most-recent first; each step carries the outcome of checking the tag out and
testing it (`.error` aborts the walk). Stop at the first good tag; a bad tag
becomes the new last-bad revision; a skip tag changes nothing. -/
def causeLoop (lastBad : Commit) (results : List TestResult) :
    List (Except BError (Commit × TestResult)) →
      Except BError (Commit × Option Commit × List TestResult)
  | [] => .ok (lastBad, none, results)
  | .error e :: _ => .error e
  | .ok (com, res) :: rest =>
    let results1 := results ++ [res]
    if res.verdict = .good then .ok (lastBad, some com, results1)
    else causeLoop (if res.verdict = .bad then com else lastBad) results1 rest

/-- `env.commitRangeForCause`: an empty tag list is an error; otherwise run
the walk starting from the session starting commit. -/
def commitRangeForCause (startCommit : Commit)
    (tagSteps : List (Except BError (Commit × TestResult))) :
    Except BError (Commit × Option Commit × List TestResult) :=
  match tagSteps with
  | [] => .error (.fatal .noReleaseTags)
  | steps => causeLoop startCommit [] steps

/-- From the claim text, for comparison with the walk: the last revision that
got a bad verdict among the tested tags, the starting commit if none did;
skip verdicts do not update it. -/
def lastBadRevision (startCommit : Commit)
    (tested : List (Commit × TestResult)) : Commit :=
  tested.foldl (fun lb p => if p.2.verdict = .bad then p.1 else lb) startCommit

/-- `env.commitRangeForFix`: test HEAD once; a non-good verdict leaves the
good endpoint empty, a good verdict yields the range [HEAD, starting commit]. -/
def commitRangeForFix (head startCommit : Commit)
    (headTest : Except BError TestResult) :
    Except BError (Commit × Option Commit × List TestResult) :=
  match headTest with
  | .error e => .error e
  | .ok res =>
    if res.verdict ≠ .good then .ok (head, none, [res])
    else .ok (head, some startCommit, [res])

/-- `env.validateCommitRange`: classify the last-tested revision of the range
walk. Verdict bad: terminal non-fatal result (crash still present at the
extreme revision). Verdict skip: in fix mode a terminal non-fatal result
(retry later), in cause mode a fatal error. Verdict good: proceed (`.ok none`)
into the bisect oracle. -/
def validateCommitRange (fix : Bool) (bad : Commit) (good : Option Commit)
    (results : List TestResult) (kernelConfig : KConfig) :
    Except BError (Option Result) :=
  match results.getLast? with
  | none => .error (.fatal .noRangeResults)
  | some finalResult =>
    if finalResult.verdict = .bad then
      .ok (some { commits := [], report := finalResult.rep, commit := some bad,
                  config := kernelConfig, noopChange := false,
                  isRelease := false })
    else if finalResult.verdict = .skip then
      if fix then
        .ok (some { commits := [], report := finalResult.rep,
                    commit := some bad, config := kernelConfig,
                    noopChange := false, isRelease := false })
      else .error (.fatal .oldestReleaseSkip)
    else .ok none

/-- Outcomes of the VCS adapter calls used by commit resolution; a failure tag
stands for the propagated adapter error. -/
inductive VcsFailure
  | checkoutFailed
  | containsFailed
  | getByTitleFailed
deriving DecidableEq

/-- Errors returned by `env.identifyRewrittenCommit`. -/
inductive RewriteErr
  | vcs (e : VcsFailure)
  | notReachableNoTitle
  | notReachable
deriving DecidableEq

/-- `env.identifyRewrittenCommit`: check the branch out; if the stored hash is
still contained in the branch (or the containment query fails) return it
unchanged; otherwise fall back to title lookup. Returns the (possibly new)
hash together with an optional error, exactly like the Go pair return. -/
def identifyRewrittenCommit (commit commitTitle : String)
    (checkoutBranch : Option VcsFailure)
    (containsRes : Except VcsFailure Bool)
    (byTitle : Except VcsFailure (Option Commit)) : String × Option RewriteErr :=
  match checkoutBranch with
  | some e => (commit, some (.vcs e))
  | none =>
    match containsRes with
    | .error e => (commit, some (.vcs e))
    | .ok true => (commit, none)
    | .ok false =>
      if commitTitle = "" then (commit, some .notReachableNoTitle)
      else
        match byTitle with
        | .error e => (commit, some (.vcs e))
        | .ok none => (commit, some .notReachable)
        | .ok (some c) => (c.hash, none)

/-- `checkConfig`: each path check is modelled by a presence flag (is the
option set) and an existence flag (does the path exist). -/
def checkConfig (binDirExists : Bool) (userspaceSet userspaceExists : Bool)
    (sysctlSet sysctlExists : Bool) (cmdlineSet cmdlineExists : Bool) :
    Option FatalMsg :=
  if ¬ binDirExists then some .binDirMissing
  else if userspaceSet ∧ ¬ userspaceExists then some .userspaceMissing
  else if sysctlSet ∧ ¬ sysctlExists then some .sysctlMissing
  else if cmdlineSet ∧ ¬ cmdlineExists then some .cmdlineMissing
  else none

/-- `Run`: the top-level entry point up to `runImpl` (which is abstracted as
`rest`). Config-check, repo-open and env-creation failures are returned as
plain errors; only a failure of the initial branch checkout is wrapped into
the distinguished `InfraError`. -/
def Run (configCheck : Option FatalMsg) (newRepo : Except FatalMsg Unit)
    (newEnv : Except FatalMsg Unit) (checkoutBranch : Except Unit Unit)
    (rest : Except BError Result) : Except BError Result :=
  match configCheck with
  | some e => .error (.fatal e)
  | none =>
    match newRepo with
    | .error e => .error (.fatal e)
    | .ok _ =>
      match newEnv with
      | .error e => .error (.fatal e)
      | .ok _ =>
        match checkoutBranch with
        | .error _ => .error (.infra .checkoutBranchFailed)
        | .ok _ => rest

/-! Concrete sample data used by witnesses and counterexamples. -/

def c0 : Commit := { hash := "c0", title := "commit c0", parents := [] }

def cA : Commit := { hash := "cA", title := "commit cA", parents := [] }

def cB : Commit := { hash := "cB", title := "commit cB", parents := [] }

def cC : Commit := { hash := "cC", title := "commit cC", parents := [] }

def rep0 : Report := { title := "KASAN use-after-free", report := "trace" }

def tBad : TestResult :=
  { verdict := .bad, com := c0, rep := some rep0, kernelSign := "s0" }

def tGood : TestResult :=
  { verdict := .good, com := c0, rep := none, kernelSign := "s0" }

def tSkip : TestResult :=
  { verdict := .skip, com := c0, rep := some rep0, kernelSign := "" }

/-! Claim theorems. -/

/-- Claim C1 counterexample: in fix mode the good/bad inversion is applied to
the test result before it is stored, so for a test that returned bad the
entry stored in the results map records good, not the natural cause-mode
polarity the claim asserts for stored verdicts. -/
theorem C1_counterexample :
    pred true [] (.ok tBad) =
      .ok ([("c0", { tBad with verdict := .good })], .good) ∧
    tBad.verdict = .bad ∧
    ({ tBad with verdict := (.good : BisectResult) }).verdict ≠ .bad :=
  ⟨rfl, rfl, by decide⟩

/-- Claim C1 (amended): the fix-mode inversion is applied to the test result
before it is stored, so the stored record and the value returned to the
external bisect oracle carry the same, flipped verdict; in cause mode both
are the natural verdict; the inversion never alters a skip verdict. -/
theorem C1_amended_polarity (results : List (String × TestResult))
    (t : TestResult) :
    pred false results (.ok t) = .ok ((t.com.hash, t) :: results, t.verdict) ∧
    pred true results (.ok t) =
      .ok ((t.com.hash, flipResult t) :: results, (flipResult t).verdict) ∧
    flipVerdict .skip = .skip := by
  refine ⟨rfl, ?_, rfl⟩
  have hflip : ∀ s : TestResult,
      (if s.verdict = .bad then { s with verdict := BisectResult.good }
        else if s.verdict = .good then { s with verdict := BisectResult.bad }
        else s) = flipResult s := by
    rintro ⟨v, com, rep, sign⟩
    cases v <;> rfl
  have hcom : (flipResult t).com = t.com := rfl
  simp [pred, hflip t, hcom]

/-- Claim C2 counterexample: the minimizer returns a candidate whose recorded
verdict is good; the driver nevertheless installs it as the active config, so
the active config is neither the supplied full config nor a minimizer output
with a recorded bad verdict. -/
theorem C2_counterexample :
    (minimizeConfig (fun _ => tGood) ["c1"] "c1").1 = "c1" ∧
    (minimizeConfig (fun _ => tGood) ["c1"] "c1").2 = some tGood ∧
    tGood.verdict ≠ .bad ∧
    ("c1" : KConfig) ≠ "cfull" ∧
    (adoptMinimized tBad (minimizeConfig (fun _ => tGood) ["c1"] "c1")).1 =
      "c1" :=
  ⟨rfl, rfl, by decide, by decide, rfl⟩

/-- Claim C2 (amended): after a successful minimization the active config is
always the minimizer output, whatever verdict was recorded for it; the
starting test result is replaced exactly when the returned config has a
recorded result. -/
theorem C2_amended_adoption (tester : KConfig → TestResult)
    (candidates : List KConfig) (minConfig : KConfig) (testRes : TestResult) :
    (adoptMinimized testRes (minimizeConfig tester candidates minConfig)).1 =
      minConfig ∧
    (adoptMinimized testRes (minimizeConfig tester candidates minConfig)).2 =
      ((minimizeConfig tester candidates minConfig).2.getD testRes) := by
  simp only [adoptMinimized, minimizeConfig]
  cases lookupConfig (candidates.foldl (fun m c => (c, tester c) :: m) [])
      minConfig <;> simp

/-- Claim C3: the reproducibility gate — when the first build-and-test cycle
completes with any verdict other than bad, the session fails with the
not-reproduced error and no Result is produced; the session proceeds past the
gate exactly on a bad verdict. -/
theorem C3_reproducibility_gate (t : TestResult)
    (rest : TestResult → Except BError Result) :
    (t.verdict ≠ .bad →
      afterGate (.ok t) rest = .error (.fatal .notReproducedOnOriginal)) ∧
    (t.verdict = .bad → afterGate (.ok t) rest = rest t) := by
  constructor <;> intro h <;> simp [afterGate, reproducibilityGate, h]

/-- Witness for claim C3 at concrete inputs: a good first verdict aborts, a
bad first verdict runs the continuation. -/
theorem C3_reproducibility_gate_witness :
    afterGate (.ok tGood) (fun _ => .error (.fatal .timeout)) =
      .error (.fatal .notReproducedOnOriginal) ∧
    afterGate (.ok tBad) (fun _ => .error (.fatal .timeout)) =
      .error (.fatal .timeout) :=
  ⟨(C3_reproducibility_gate tGood
      (fun _ => .error (.fatal .timeout))).1 (by decide),
   (C3_reproducibility_gate tBad
      (fun _ => .error (.fatal .timeout))).2 rfl⟩

/-- Claim C7: when the last-tested revision of the range walk has verdict
skip, fix mode yields a non-fatal terminal Result with empty commits, the
bad endpoint as its commit and the skip report, while cause mode fails with
the fatal oldest-release error. -/
theorem C7_skip_terminus (bad : Commit) (good : Option Commit)
    (results : List TestResult) (kernelConfig : KConfig)
    (finalResult : TestResult) (hlast : results.getLast? = some finalResult)
    (hskip : finalResult.verdict = .skip) :
    validateCommitRange true bad good results kernelConfig =
      .ok (some { commits := [], report := finalResult.rep,
                  commit := some bad, config := kernelConfig,
                  noopChange := false, isRelease := false }) ∧
    validateCommitRange false bad good results kernelConfig =
      .error (.fatal .oldestReleaseSkip) := by
  constructor <;> simp [validateCommitRange, hlast, hskip]

/-- Witness for claim C7 at a concrete one-element trace ending in skip. -/
theorem C7_skip_terminus_witness :
    validateCommitRange true c0 none [tSkip] "cfg" =
      .ok (some { commits := [], report := tSkip.rep, commit := some c0,
                  config := "cfg", noopChange := false, isRelease := false }) ∧
    validateCommitRange false c0 none [tSkip] "cfg" =
      .error (.fatal .oldestReleaseSkip) :=
  C7_skip_terminus c0 none [tSkip] "cfg" tSkip rfl rfl

/-- Claim C9: when the branch checkout succeeds and the stored starting hash
is still contained in the branch, commit resolution returns the hash
unchanged with no error, whatever the commit title is and whatever the
title-lookup oracle would answer. -/
theorem C9_resolution_idempotent (commit commitTitle : String)
    (byTitle : Except VcsFailure (Option Commit)) :
    identifyRewrittenCommit commit commitTitle none (.ok true) byTitle =
      (commit, none) := rfl

/-- Claim C10: only a failure of the initial branch checkout is surfaced as
the distinguished retryable InfraError; failures of config validation, repo
opening or environment creation are plain fatal errors, and with all four
setup steps successful Run proceeds into the session body. -/
theorem C10_checkout_infra (e : FatalMsg) (nr ne : Except FatalMsg Unit)
    (co : Except Unit Unit) (rest : Except BError Result) :
    Run none (.ok ()) (.ok ()) (.error ()) rest =
      .error (.infra .checkoutBranchFailed) ∧
    Run (some e) nr ne co rest = .error (.fatal e) ∧
    Run none (.error e) ne co rest = .error (.fatal e) ∧
    Run none (.ok ()) (.error e) co rest = .error (.fatal e) ∧
    Run none (.ok ()) (.ok ()) (.ok ()) rest = rest :=
  ⟨rfl, rfl, rfl, rfl, rfl⟩

def tSkipA : TestResult :=
  { verdict := .skip, com := cA, rep := none, kernelSign := "" }

def tBadB : TestResult :=
  { verdict := .bad, com := cB, rep := some rep0, kernelSign := "sB" }

def tGoodC : TestResult :=
  { verdict := .good, com := cC, rep := none, kernelSign := "sC" }

/-- Helper for claim C4: a walk whose steps all succeed with no good verdict
exhausts the tags, records every result in order, and folds the last-bad
commit through the list. -/
theorem causeLoop_all_not_good :
    ∀ (tags : List (Commit × TestResult)) (lastBad : Commit)
      (acc : List TestResult),
      (∀ p ∈ tags, p.2.verdict ≠ BisectResult.good) →
      causeLoop lastBad acc (tags.map Except.ok) =
        .ok (lastBadRevision lastBad tags, none, acc ++ tags.map Prod.snd) := by
  intro tags
  induction tags with
  | nil => intro lastBad acc h; simp [causeLoop, lastBadRevision]
  | cons p rest ih =>
    intro lastBad acc h
    obtain ⟨com, res⟩ := p
    have h1 : res.verdict ≠ BisectResult.good := h (com, res) (by simp)
    have h2 : ∀ q ∈ rest, q.2.verdict ≠ BisectResult.good :=
      fun q hq => h q (by simp [hq])
    simp only [List.map_cons, causeLoop, if_neg h1]
    rw [ih _ _ h2]
    simp [lastBadRevision, List.append_assoc]

/-- Helper for claim C4: a walk over a prefix with no good verdict followed by
a good tag stops exactly at that tag, recording the prefix results and the
good result, with the bad endpoint folded over the prefix only. -/
theorem causeLoop_first_good :
    ∀ (pre : List (Commit × TestResult)) (lastBad : Commit)
      (acc : List TestResult) (q : Commit × TestResult)
      (rest : List (Commit × TestResult)),
      (∀ p ∈ pre, p.2.verdict ≠ BisectResult.good) →
      q.2.verdict = BisectResult.good →
      causeLoop lastBad acc ((pre ++ q :: rest).map Except.ok) =
        .ok (lastBadRevision lastBad pre, some q.1,
             acc ++ pre.map Prod.snd ++ [q.2]) := by
  intro pre
  induction pre with
  | nil =>
    intro lastBad acc q rest hpre hq
    obtain ⟨com, res⟩ := q
    simp only at hq
    simp [causeLoop, hq, lastBadRevision]
  | cons p pre ih =>
    intro lastBad acc q rest hpre hq
    obtain ⟨com, res⟩ := p
    have h1 : res.verdict ≠ BisectResult.good := hpre (com, res) (by simp)
    simp only [List.cons_append, List.map_cons, causeLoop, if_neg h1,
      List.append_eq]
    rw [ih _ _ q rest (fun r hr => hpre r (by simp [hr])) hq]
    simp [lastBadRevision, List.append_assoc]

/-- Claim C4: in cause mode the range walk tests the tags in order and stops
at the first good tag, returning the range whose bad endpoint is the last
revision with a bad verdict (the starting commit when none, skip tags not
updating it) and whose good endpoint is that tag; when every tag is bad or
skip it returns the last-bad revision with an empty good endpoint. -/
theorem C4_cause_range (start : Commit) (tags : List (Commit × TestResult))
    (hne : tags ≠ []) :
    ((∀ p ∈ tags, p.2.verdict ≠ BisectResult.good) →
      commitRangeForCause start (tags.map Except.ok) =
        .ok (lastBadRevision start tags, none, tags.map Prod.snd)) ∧
    (∀ pre q rest, tags = pre ++ q :: rest →
      (∀ p ∈ pre, p.2.verdict ≠ BisectResult.good) →
      q.2.verdict = BisectResult.good →
      commitRangeForCause start (tags.map Except.ok) =
        .ok (lastBadRevision start pre, some q.1,
             pre.map Prod.snd ++ [q.2])) := by
  have hopen : commitRangeForCause start (tags.map Except.ok) =
      causeLoop start [] (tags.map Except.ok) := by
    cases tags with
    | nil => exact absurd rfl hne
    | cons a l => rfl
  constructor
  · intro h
    rw [hopen, causeLoop_all_not_good tags start [] h]
    simp
  · intro pre q rest heq hpre hq
    subst heq
    rw [hopen, causeLoop_first_good pre start [] q rest hpre hq]
    simp

/-- Witness for claim C4: a skip tag, then a bad tag, then a good tag; the
walk stops at the good tag and the bad endpoint is the bad tag, not the skip
tag and not the starting commit. -/
theorem C4_cause_range_witness :
    commitRangeForCause c0
        ([(cA, tSkipA), (cB, tBadB), (cC, tGoodC)].map Except.ok) =
      .ok (cB, some cC, [tSkipA, tBadB, tGoodC]) := by
  have h := (C4_cause_range c0 [(cA, tSkipA), (cB, tBadB), (cC, tGoodC)]
      (by simp)).2 [(cA, tSkipA), (cB, tBadB)] (cC, tGoodC) [] rfl
      (by decide) rfl
  simpa [lastBadRevision, tSkipA, tBadB] using h

/-- Reduction of env.test for a successful build and a runner that returns a
trial list: the tally decides among the infra gate, bad, good and skip. -/
theorem test_built_ok (st : SessionState) (current : Commit) (sign : String)
    (trials : List EnvTestResult) :
    test false (.built current sign) (fun _ => .ok trials) st =
      if (processResults trials).infra > trials.length / 2 then
        ({ st with numTests := st.numTests + 1 },
         .error (.infra .tooManyInfraFailures))
      else if (processResults trials).bad ≠ 0 then
        ((if ¬ st.flaky ∧
            (processResults trials).bad < (processResults trials).good
          then { flaky := true, numTests := st.numTests + 1 }
          else { st with numTests := st.numTests + 1 }),
         .ok { verdict := .bad, com := current,
               rep := (processResults trials).rep, kernelSign := sign })
      else if (processResults trials).good ≠ 0 then
        ({ st with numTests := st.numTests + 1 },
         .ok { verdict := .good, com := current,
               rep := (processResults trials).rep, kernelSign := sign })
      else
        ({ st with numTests := st.numTests + 1 },
         .ok { verdict := .skip, com := current,
               rep := some (failedTestingReport current.hash),
               kernelSign := sign }) := rfl

/-- Reduction of env.test for a successful build and an arbitrary runner: the
runner is consulted exactly once, at the computed trial count. -/
theorem test_built (st : SessionState) (current : Commit) (sign : String)
    (r : Nat → Except Unit (List EnvTestResult)) :
    test false (.built current sign) r st =
      match r (trialCount st.flaky st.numTests) with
      | .error _ => ({ st with numTests := st.numTests + 1 },
                     .error (.infra .reproTestingFailure))
      | .ok results => test false (.built current sign) (fun _ => .ok results) st := by
  cases hr : r (trialCount st.flaky st.numTests) with
  | error e => simp [test, hr]
  | ok results => simp [test, hr]

/-- Claim C5: when the trials classified as infra failures exceed half of the
attempted trials, the test invocation fails with the distinguished retryable
InfraError — not a fatal error and with no test result; with half or fewer
infra failures the invocation completes with a verdict. -/
theorem C5_infra_gate (st : SessionState) (current : Commit) (sign : String)
    (trials : List EnvTestResult) :
    (2 * (processResults trials).infra > trials.length →
      test false (.built current sign) (fun _ => .ok trials) st =
        ({ st with numTests := st.numTests + 1 },
         .error (.infra .tooManyInfraFailures))) ∧
    (2 * (processResults trials).infra ≤ trials.length →
      ∃ st1 res, test false (.built current sign) (fun _ => .ok trials) st =
        (st1, .ok res)) := by
  constructor
  · intro h
    have hgt : (processResults trials).infra > trials.length / 2 := by
      rw [gt_iff_lt, Nat.div_lt_iff_lt_mul (by norm_num : (0:ℕ) < 2)]
      omega
    rw [test_built_ok, if_pos hgt]
  · intro h
    have hngt : ¬ ((processResults trials).infra > trials.length / 2) := by
      rw [gt_iff_lt, Nat.div_lt_iff_lt_mul (by norm_num : (0:ℕ) < 2)]
      omega
    rw [test_built_ok, if_neg hngt]
    by_cases hb : (processResults trials).bad ≠ 0
    · rw [if_pos hb]; exact ⟨_, _, rfl⟩
    · rw [if_neg hb]
      by_cases hg : (processResults trials).good ≠ 0
      · rw [if_pos hg]; exact ⟨_, _, rfl⟩
      · rw [if_neg hg]; exact ⟨_, _, rfl⟩

/-- Witness for claim C5: two of three trials are infra failures, aborting
with the retryable InfraError; a single clean trial completes with a verdict. -/
theorem C5_infra_gate_witness :
    test false (.built c0 "s0")
        (fun _ => .ok [some .otherError, some .otherError, none])
        ⟨false, 1⟩ =
      (⟨false, 2⟩, .error (.infra .tooManyInfraFailures)) ∧
    ∃ st1 res,
      test false (.built c0 "s0") (fun _ => .ok [none]) ⟨false, 1⟩ =
        (st1, .ok res) :=
  ⟨(C5_infra_gate ⟨false, 1⟩ c0 "s0"
      [some .otherError, some .otherError, none]).1 (by decide),
   (C5_infra_gate ⟨false, 1⟩ c0 "s0" [none]).2 (by decide)⟩

/-- Claim C6: the trial count is MaxNumTests/2 with MaxNumTests = 20, doubled
to 20 exactly when the flaky flag was set by an earlier invocation or when
this is the first test of the session, and 10 otherwise; env.test consults
the runner only at that count. -/
theorem C6_trial_count (st : SessionState) (current : Commit) (sign : String)
    (r1 r2 : Nat → Except Unit (List EnvTestResult))
    (hagree : r1 (trialCount st.flaky st.numTests) =
      r2 (trialCount st.flaky st.numTests)) :
    trialCount st.flaky st.numTests =
      (if st.flaky ∨ st.numTests = 0 then 20 else 10) ∧
    MaxNumTests = 20 ∧
    test false (.built current sign) r1 st =
      test false (.built current sign) r2 st := by
  refine ⟨?_, rfl, ?_⟩
  · by_cases h : st.flaky ∨ st.numTests = 0 <;>
      simp [trialCount, MaxNumTests, h]
  · rw [test_built st current sign r1, test_built st current sign r2, hagree]

/-- Witness for claim C6: with the flag clear and one prior test the count is
10; two runners that agree at 10 make the invocation agree. -/
theorem C6_trial_count_witness :
    trialCount false 1 = (if False ∨ (1:Nat) = 0 then 20 else 10) ∧
    MaxNumTests = 20 ∧
    test false (.built c0 "s0") (fun _ => .ok [none]) ⟨false, 1⟩ =
      test false (.built c0 "s0") (fun _ => .ok [none]) ⟨false, 1⟩ := by
  have h := C6_trial_count ⟨false, 1⟩ c0 "s0"
    (fun _ => .ok [none]) (fun _ => .ok [none]) rfl
  simpa using h

/-- Helper for claim C8: folding the trial classifier preserves the invariant
that a nonzero bad count comes with a remembered representative report. -/
theorem foldl_processTrial_rep :
    ∀ (trials : List EnvTestResult) (t0 : Tally),
      (t0.bad ≠ 0 → t0.rep.isSome) →
      ((trials.foldl processTrial t0).bad ≠ 0 →
        (trials.foldl processTrial t0).rep.isSome) := by
  intro trials
  induction trials with
  | nil => intro t0 h; exact h
  | cons r rest ih =>
    intro t0 h
    apply ih
    cases r with
    | none => exact h
    | some e =>
      cases e with
      | testError i b =>
        by_cases hi : i <;> simp [processTrial, hi] <;> exact fun hb => h hb
      | crashError rep => intro _; simp [processTrial]
      | otherError => exact h

/-- Helper for claim C8: the flaky flag is sticky — whatever the inputs, a
test invocation never clears it. -/
theorem test_flaky_monotone (timedOut : Bool) (b : BuildOutcome)
    (r : Nat → Except Unit (List EnvTestResult)) (st : SessionState)
    (h : st.flaky = true) : (test timedOut b r st).1.flaky = true := by
  cases timedOut with
  | true => simpa [test] using h
  | false =>
    cases b with
    | noHead => simpa [test] using h
    | buildFailed current sign errInfo => simpa [test] using h
    | built current sign =>
      rw [test_built]
      cases hr : r (trialCount st.flaky st.numTests) with
      | error e => simpa using h
      | ok results =>
        dsimp only
        rw [test_built_ok]
        split_ifs with h1 h2 h3 <;> simp_all

/-- Claim C8 counterexample: a run with a single clean success has no crash
and bad = 0 below good = 1, yet the flaky flag stays clear (the code only
sets it when at least one trial crashed), while the claim as stated would
require the flag to be set on such a crash-free run. -/
theorem C8_counterexample :
    (processResults [none]).bad = 0 ∧
    (processResults [none]).bad < (processResults [none]).good ∧
    (test false (.built c0 "s0") (fun _ => .ok [none]) ⟨false, 1⟩).1.flaky =
      false :=
  ⟨rfl, by decide, rfl⟩

/-- Claim C8 (amended): for a test invocation that passes the infra gate and
whose trials include at least one crash, the verdict is bad and the tally
representative crash report is remembered; the flaky flag afterwards is set
exactly when it already was or the crash count is below the clean-success
count (so it is set on a fresh flag only when a crash occurred and bad is
below good); and the flag is never cleared by any invocation. -/
theorem C8_amended_flaky (st : SessionState) (current : Commit) (sign : String)
    (trials : List EnvTestResult)
    (hgate : 2 * (processResults trials).infra ≤ trials.length)
    (hbad : (processResults trials).bad ≠ 0) :
    (test false (.built current sign) (fun _ => .ok trials) st).2 =
      .ok { verdict := .bad, com := current,
            rep := (processResults trials).rep, kernelSign := sign } ∧
    (processResults trials).rep.isSome ∧
    ((test false (.built current sign) (fun _ => .ok trials) st).1.flaky =
        true ↔
      (st.flaky = true ∨
        (processResults trials).bad < (processResults trials).good)) ∧
    (∀ timedOut b r st0, st0.flaky = true →
      (test timedOut b r st0).1.flaky = true) := by
  have hngt : ¬ ((processResults trials).infra > trials.length / 2) := by
    rw [gt_iff_lt, Nat.div_lt_iff_lt_mul (by norm_num : (0:ℕ) < 2)]
    omega
  have hred := test_built_ok st current sign trials
  rw [if_neg hngt, if_pos hbad] at hred
  refine ⟨by rw [hred], ?_, ?_, test_flaky_monotone⟩
  · exact foldl_processTrial_rep trials
      { bad := 0, good := 0, infra := 0, rep := none }
      (fun hz => absurd rfl hz) hbad
  · rw [hred]
    by_cases hf : st.flaky = true <;>
      by_cases hlt : (processResults trials).bad < (processResults trials).good <;>
        simp [hf, hlt]

/-- Witness for claim C8 at a concrete flaky run: one crash and two clean
successes give verdict bad, a remembered report, and set the flaky flag. -/
theorem C8_amended_flaky_witness :
    (test false (.built c0 "s0")
        (fun _ => .ok [some (.crashError rep0), none, none]) ⟨false, 1⟩).2 =
      .ok { verdict := .bad, com := c0,
            rep := (processResults [some (.crashError rep0), none, none]).rep,
            kernelSign := "s0" } ∧
    (processResults [some (.crashError rep0), none, none]).rep.isSome ∧
    ((test false (.built c0 "s0")
        (fun _ => .ok [some (.crashError rep0), none, none])
        ⟨false, 1⟩).1.flaky = true ↔
      ((⟨false, 1⟩ : SessionState).flaky = true ∨
        (processResults [some (.crashError rep0), none, none]).bad <
          (processResults [some (.crashError rep0), none, none]).good)) ∧
    (∀ timedOut b r st0, st0.flaky = true →
      (test timedOut b r st0).1.flaky = true) :=
  C8_amended_flaky ⟨false, 1⟩ c0 "s0"
    [some (.crashError rep0), none, none] (by decide) (by decide)

end SyzBisect
